import Mathlib

/-!
Shallow embedding of `src/edu_scanner.py` (edu-library repository):
the metadata-resolution engine that scans course directories, reads
sidecar NFO documents, container metadata and filenames, and resolves
per-field values with provenance flags.

Conventions of the embedding:
* Python `None` becomes `Option.none`; Python truthiness of a string is
  non-emptiness, of an integer non-zeroness, of `None` falsity.
* XML documents (`xml.etree.ElementTree`) are embedded as the list of the
  root's direct child elements, each with a tag and optional text
  (`ElementTree` gives `None` text for empty elements).
* A sidecar file that exists but fails to parse is the `malformed`
  constructor; `try/except` around parsing becomes a `match` on it.
* The MediaInfo probe of one video file is either a failure (exception)
  or a list of tracks; capability absence (`MediaInfo is None`) is a
  Boolean parameter.
* Characters are treated at the ASCII level: `\s`, `\d`, `str.strip()`
  and `int()` are modelled on their ASCII behaviour.
-/

namespace EduScanner

/-- Python-truthiness of an optional string: `None` and `""` are falsy. -/
def truthyStr : Option String → Bool
  | none => false
  | some s => !s.isEmpty

/-- Python-truthiness of an optional integer: `None` and `0` are falsy. -/
def truthyInt : Option Int → Bool
  | none => false
  | some v => v != 0

/-- Python-truthiness of an optional natural number (container ms/seconds). -/
def truthyNat : Option Nat → Bool
  | none => false
  | some v => v != 0

/-- Python `not x` on an optional integer field (`not lesson.duration`). -/
def pyNotInt (v : Option Int) : Bool := !truthyInt v

/-- Python `not x` on an optional string field (`not lesson.title`). -/
def pyNotStr (s : Option String) : Bool := !truthyStr s

/-- ASCII model of the whitespace class used by `\s`, `str.strip()` and
`int()`: space, tab, newline, carriage return, vertical tab, form feed. -/
def isSpc (c : Char) : Bool :=
  c = ' ' || c = '\t' || c = '\n' || c = '\r' || c = '\x0b' || c = '\x0c'

/-- ASCII decimal digit, the `\d` class and the digits accepted by `int()`. -/
def isDig (c : Char) : Bool := '0' ≤ c && c ≤ '9'

/-- Numeric value of an ASCII digit character. -/
def digVal (c : Char) : Nat := c.toNat - 48

/-- Python `str.strip()` on a character list: drop leading and trailing
whitespace. -/
def pyStrip (cs : List Char) : List Char :=
  ((cs.dropWhile isSpc).reverse.dropWhile isSpc).reverse

/-- Digit run of Python `int()` after the first digit: digits with single
underscores allowed between digits (`1_000`), rejecting trailing or doubled
underscores. `acc` is the value of the digits already consumed. -/
def digitsRest (acc : Nat) : List Char → Option Nat
  | [] => some acc
  | '_' :: rest =>
    match rest with
    | c :: r2 => if isDig c then digitsRest (acc * 10 + digVal c) r2 else none
    | [] => none
  | c :: rest => if isDig c then digitsRest (acc * 10 + digVal c) rest else none

/-- Nonempty digit run of Python `int()`: first character must be a digit. -/
def digitsVal : List Char → Option Nat
  | c :: rest => if isDig c then digitsRest (digVal c) rest else none
  | [] => none

/-- Model of Python `int(s)` for a decimal string: surrounding whitespace,
an optional single sign, then a nonempty digit run (underscores between
digits allowed); anything else raises `ValueError`, modelled as `none`. -/
def pyInt (s : String) : Option Int :=
  match pyStrip s.toList with
  | '+' :: rest => (digitsVal rest).map (fun n => (n : Int))
  | '-' :: rest => (digitsVal rest).map (fun n => -(n : Int))
  | rest => (digitsVal rest).map (fun n => (n : Int))

/-! ## Data model (`MetadataSource`, XML documents) -/

/-- `MetadataSource` dataclass: per-entity provenance flags. -/
structure MetadataSource where
  nfo : Bool := false
  file_tags : Bool := false
  filename : Bool := false
  directory_name : Bool := false
  deriving DecidableEq, Repr

/-- One direct child element of an NFO document's root:
tag plus optional text (`elem.text` is `None` for an empty element). -/
structure XElem where
  tag : String
  text : Option String
  deriving DecidableEq, Repr

/-- Outcome of opening one sidecar NFO file: a parsed root element list,
or a document that makes `ET.parse` raise (caught by the parsers). -/
inductive NfoInput where
  | malformed
  | doc (elems : List XElem)
  deriving DecidableEq, Repr

/-! ## `parse_tvshow_nfo` -/

/-- Field set built by `parse_tvshow_nfo` (course-level metadata dict). -/
structure CourseNfoMeta where
  name : Option String := none
  description : Option String := none
  instructor : Option String := none
  year : Option String := none
  deriving DecidableEq, Repr

/-- Body of the `for elem in root` loop of `parse_tvshow_nfo`:
title → name, plot → description, director → instructor, year → year;
every other tag is ignored; a later element overwrites an earlier one. -/
def tvFold (m : CourseNfoMeta) (e : XElem) : CourseNfoMeta :=
  if e.tag = "title" then { m with name := e.text }
  else if e.tag = "plot" then { m with description := e.text }
  else if e.tag = "director" then { m with instructor := e.text }
  else if e.tag = "year" then { m with year := e.text }
  else m

/-- `parse_tvshow_nfo`: parse failure (the `except` branch) returns `none`;
otherwise fold the root's children over the initial all-`None` dict. -/
def parse_tvshow_nfo : NfoInput → Option CourseNfoMeta
  | .malformed => none
  | .doc es => some (es.foldl tvFold {})

/-! ## `parse_episode_nfo` -/

/-- Field set built by `parse_episode_nfo` (lesson-level metadata dict);
`duration` is in seconds, already multiplied from the minute value. -/
structure EpisodeNfoMeta where
  title : Option String := none
  description : Option String := none
  duration : Option Int := none
  deriving DecidableEq, Repr

/-- Body of the `for elem in root` loop of `parse_episode_nfo`:
title and plot take the raw text; a `runtime` element sets
`duration := int(text) * 60` only when `int()` succeeds (the inner
`try/except (ValueError, TypeError)` swallows non-numeric text and
`None` text). -/
def epFold (m : EpisodeNfoMeta) (e : XElem) : EpisodeNfoMeta :=
  if e.tag = "title" then { m with title := e.text }
  else if e.tag = "plot" then { m with description := e.text }
  else if e.tag = "runtime" then
    match e.text with
    | none => m
    | some t =>
      match pyInt t with
      | some v => { m with duration := some (v * 60) }
      | none => m
  else m

/-- `parse_episode_nfo`: parse failure returns `none`; otherwise fold the
root's children over the initial all-`None` dict. -/
def parse_episode_nfo : NfoInput → Option EpisodeNfoMeta
  | .malformed => none
  | .doc es => some (es.foldl epFold {})

/-! ## `extract_media_metadata` -/

/-- A pymediainfo track: type, duration in milliseconds, embedded title. -/
structure Track where
  track_type : String
  duration : Option Nat
  title : Option String
  deriving DecidableEq, Repr

/-- Result dict of `extract_media_metadata`: duration in whole seconds and
the embedded title, either possibly absent. -/
structure MediaMeta where
  duration : Option Nat := none
  title : Option String := none
  deriving DecidableEq, Repr

/-- Outcome of `MediaInfo.parse` on one file: an exception (caught) or a
track list. -/
inductive Probe where
  | fail
  | ok (tracks : List Track)
  deriving DecidableEq, Repr

/-- The `for track in media_info.tracks` loop: fill the dict from the first
`General` track — duration (`int(track.duration / 1000)`, guarded by
truthiness) and title (guarded by truthiness) — then `break`. -/
def fillFromFirstGeneral : List Track → MediaMeta
  | [] => {}
  | t :: rest =>
    if t.track_type = "General" then
      { duration :=
          match t.duration with
          | some d => if d != 0 then some (d / 1000) else none
          | none => none,
        title :=
          match t.title with
          | some s => if !s.isEmpty then some s else none
          | none => none }
    else fillFromFirstGeneral rest

/-- `extract_media_metadata`: `none` when the MediaInfo capability is
absent (`MediaInfo is None`) or probing raises; otherwise the dict filled
from the first `General` track. -/
def extract_media_metadata (mediaInfoAvailable : Bool) (p : Probe) :
    Option MediaMeta :=
  if !mediaInfoAvailable then none
  else
    match p with
    | .fail => none
    | .ok tracks => some (fillFromFirstGeneral tracks)

/-! ## `parse_lesson_filename`

The two regex patterns and the fallback `re.sub` are embedded as explicit
backtracking matchers with Python `re` semantics: quantifiers are greedy
and give back from the right; `.` matches any character except `\n`; the
final `$` matches at the end of the string or just before one final `\n`.
The search tries candidate quantifier lengths in exactly the engine's
order, so the group returned is the one `re.match` yields. -/

/-- First `some` produced by `f` along the list, in order (the order in
which a backtracking regex engine tries its choice points). -/
def firstSome {α β : Type} (f : α → Option β) : List α → Option β
  | [] => none
  | a :: as =>
    match f a with
    | some b => some b
    | none => firstSome f as

/-- `n, n-1, ..., 0`: the lengths a greedy `*` quantifier tries, longest
first. -/
def downFrom (n : Nat) : List Nat := (List.range (n + 1)).reverse

/-- The trailing `(.+)$` of both patterns, applied to the remainder `r`:
the group is the maximal `\n`-free prefix, accepted when it is nonempty
and reaches the end of the string or leaves exactly one final `\n`. -/
def dotPlusEnd (r : List Char) : Option (List Char) :=
  let p := r.takeWhile (fun c => c ≠ '\n')
  let rest := r.drop p.length
  if p.isEmpty then none
  else if rest.isEmpty then some p
  else if rest = ['\n'] then some p
  else none

/-- Tail `\s*<sep>\s*(.+)$` of both patterns, where `<sep>` is one
character from `seps` — optional (`?`) iff `sepOptional`. Tries the
whitespace lengths greedily and a present separator before an absent one,
exactly as the engine backtracks, and returns the first group found. -/
def tailSepMatch (seps : List Char) (sepOptional : Bool) (r : List Char) :
    Option (List Char) :=
  let aMax := (r.takeWhile isSpc).length
  firstSome (fun aLen =>
    let r1 := r.drop aLen
    let bOpts : List Nat :=
      match r1 with
      | c :: _ =>
        if seps.contains c then (if sepOptional then [1, 0] else [1])
        else (if sepOptional then [0] else [])
      | [] => if sepOptional then [0] else []
    firstSome (fun bLen =>
      let r2 := r1.drop bLen
      let cMax := (r2.takeWhile isSpc).length
      firstSome (fun cLen => dotPlusEnd (r2.drop cLen)) (downFrom cMax))
      bOpts)
    (downFrom aMax)

/-- Consume the literal `lit` case-insensitively (ASCII fold) from the
front of `cs`, returning the remainder. -/
def takeLitCI (lit : List Char) (cs : List Char) : Option (List Char) :=
  match lit, cs with
  | [], rest => some rest
  | _ :: _, [] => none
  | l :: ls, c :: cs2 => if c.toLower = l then takeLitCI ls cs2 else none

/-- First pattern, `^(?:Lesson\s+\d+\s*[-:]?\s*)(.+)$` with `IGNORECASE`:
literal `Lesson`, one-or-more whitespace, one-or-more digits, then the
common tail. Whitespace and digit run lengths are tried greedily with
give-back (so `Lesson 45` matches with digits `4` and group `5`). -/
def lessonNumberedGroup (cs : List Char) : Option (List Char) :=
  match takeLitCI ['l', 'e', 's', 's', 'o', 'n'] cs with
  | none => none
  | some r0 =>
    let sMax := (r0.takeWhile isSpc).length
    firstSome (fun sLen =>
      if sLen = 0 then none
      else
        let r1 := r0.drop sLen
        let dMax := (r1.takeWhile isDig).length
        firstSome (fun dLen =>
          if dLen = 0 then none
          else tailSepMatch ['-', ':'] true (r1.drop dLen))
          (downFrom dMax))
      (downFrom sMax)

/-- Second pattern, `^\d+\s*[-:\.]\s*(.+)$`: one-or-more digits, then the
common tail with a mandatory separator drawn from `-`, `:`, `.`. -/
def numberedGroup (cs : List Char) : Option (List Char) :=
  let dMax := (cs.takeWhile isDig).length
  firstSome (fun dLen =>
    if dLen = 0 then none
    else tailSepMatch ['-', ':', '.'] false (cs.drop dLen))
    (downFrom dMax)

/-- The fallback `re.sub(r'^\d+\s*[-:\.]?\s*', '', s)`: when the name
starts with a digit, drop the maximal digit run, maximal whitespace, one
optional separator, and maximal whitespace again; otherwise the pattern
does not match at position 0 and the string is unchanged. -/
def stripNumberedLead (cs : List Char) : List Char :=
  let d := (cs.takeWhile isDig).length
  if d = 0 then cs
  else
    let r1 := cs.drop d
    let r2 := r1.drop ((r1.takeWhile isSpc).length)
    let r3 :=
      match r2 with
      | c :: rest => if c = '-' || c = ':' || c = '.' then rest else r2
      | [] => r2
    r3.drop ((r3.takeWhile isSpc).length)

/-- Index of the last `.` in the list, if any (CPython `str.rfind`). -/
def rfindDot (cs : List Char) : Option Nat :=
  match cs.reverse.findIdx? (fun c => c = '.') with
  | none => none
  | some j => some (cs.length - 1 - j)

/-- `Path(filename).stem`: the name without its last suffix. CPython keeps
the whole name when the last dot is at position 0 (hidden file) or at the
very end. -/
def pathStem (s : String) : String :=
  let cs := s.toList
  match rfindDot cs with
  | some i => if 0 < i && i < cs.length - 1 then ⟨cs.take i⟩ else s
  | none => s

/-- `Path(p).suffix`: the last dot-separated suffix of the final path
component, dot included, or `""`. -/
def pathSuffix (s : String) : String :=
  let cs := (s.toList.reverse.takeWhile (fun c => c ≠ '/')).reverse
  match rfindDot cs with
  | some i => if 0 < i && i < cs.length - 1 then ⟨cs.drop i⟩ else ""
  | none => ""

/-- `Path(p).name`: the final path component. -/
def pathName (s : String) : String :=
  ⟨(s.toList.reverse.takeWhile (fun c => c ≠ '/')).reverse⟩

/-- `parse_lesson_filename`: strip the extension, try the `Lesson N`
pattern, then the numbered pattern — each returning `match.group(1).strip()`
as-is, which may be the empty string — and otherwise strip a leading
number prefix best-effort, returning `None` only in that last branch when
the cleaned remainder is empty. -/
def parse_lesson_filename (filename : String) : Option String :=
  let cs := (pathStem filename).toList
  match lessonNumberedGroup cs with
  | some g => some ⟨pyStrip g⟩
  | none =>
    match numberedGroup cs with
    | some g => some ⟨pyStrip g⟩
    | none =>
      let cleaned := pyStrip (stripNumberedLead cs)
      if cleaned.isEmpty then none else some ⟨cleaned⟩

/-- Reference algorithm of spec §4.3, for comparison with
`parse_lesson_filename`: identical pattern chain, but step 5 applies to
the final candidate of every branch — an empty-after-trim candidate is
absent, never the empty string. -/
def filenameTitleSpec (filename : String) : Option String :=
  let cs := (pathStem filename).toList
  let candidate :=
    match lessonNumberedGroup cs with
    | some g => pyStrip g
    | none =>
      match numberedGroup cs with
      | some g => pyStrip g
      | none => pyStrip (stripNumberedLead cs)
  if candidate.isEmpty then none else some ⟨candidate⟩

/-! ## `is_video_file`, `find_nfo_file` -/

/-- The fixed extension allow-list of `is_video_file`. -/
def video_extensions : List String :=
  [".mp4", ".mkv", ".avi", ".mov", ".flv", ".wmv", ".webm", ".m4v"]

/-- `str.lower()` at the ASCII level (the characters of a file extension). -/
def strLower (s : String) : String := ⟨s.toList.map Char.toLower⟩

/-- `is_video_file`: the path's suffix, lower-cased, is in the allow-list. -/
def is_video_file (p : String) : Bool :=
  video_extensions.contains (strLower (pathSuffix p))

/-- `find_nfo_file`: first element of the glob result list, if any
(`nfo_files[0] if nfo_files else None`). The input is the list of sidecar
documents in the directory, in glob enumeration order. -/
def find_nfo_file (nfo_files : List NfoInput) : Option NfoInput :=
  nfo_files.head?

/-! ## Per-lesson resolution (body of the video-file loop, lines 278-321)

The lesson's sidecar candidates are the documents the candidate loop would
open: the stem-matching document when it exists, else the directory's glob
matches — the loop parses the first existing candidate and `break`s, so
only the head is ever consulted. -/

/-- Resolved state of one lesson (title, duration in seconds, description,
provenance flags); a fresh `Lesson(...)` starts with everything absent. -/
structure LessonMeta where
  title : Option String := none
  duration : Option Int := none
  description : Option String := none
  source : MetadataSource := {}
  deriving DecidableEq, Repr

/-- Everything the loop body reads for one video file: its name, the
existing sidecar candidates in loop order, and the MediaInfo probe. -/
structure LessonInputs where
  filename : String
  nfoCandidates : List NfoInput
  probe : Probe

/-- The sidecar step (lines 291-302): parse the first existing candidate;
a truthy title is written and sets the `nfo` flag; a truthy duration is
written when the lesson's duration is still falsy; a truthy description
is written; then `break`. -/
def applyEpisodeNfo (st : LessonMeta) (cands : List NfoInput) : LessonMeta :=
  match cands with
  | [] => st
  | c :: _ =>
    match parse_episode_nfo c with
    | none => st
    | some d =>
      let st1 :=
        if truthyStr d.title then
          { st with title := d.title, source := { st.source with nfo := true } }
        else st
      let st2 :=
        if truthyInt d.duration && pyNotInt st1.duration then
          { st1 with duration := d.duration }
        else st1
      if truthyStr d.description then { st2 with description := d.description }
      else st2

/-- The container step (lines 304-312): only when MediaInfo is available;
a truthy container duration is written when the lesson's duration is
falsy; a truthy container title is written when the lesson's title is
falsy and sets the `file_tags` flag. -/
def applyMedia (mediaInfoAvailable : Bool) (p : Probe) (st : LessonMeta) :
    LessonMeta :=
  if !mediaInfoAvailable then st
  else
    match extract_media_metadata mediaInfoAvailable p with
    | none => st
    | some m =>
      let st1 :=
        match m.duration with
        | some v =>
          if pyNotInt st.duration && v != 0 then
            { st with duration := some (v : Int) }
          else st
        | none => st
      match m.title with
      | some t =>
        if pyNotStr st1.title && !t.isEmpty then
          { st1 with title := some t,
                     source := { st1.source with file_tags := true } }
        else st1
      | none => st1

/-- The filename step (lines 314-319): when the title is still falsy,
parse the filename; a truthy parse result is written and sets the
`filename` flag. -/
def applyFilename (fname : String) (st : LessonMeta) : LessonMeta :=
  if pyNotStr st.title then
    match parse_lesson_filename fname with
    | some t =>
      if !t.isEmpty then
        { st with title := some t,
                  source := { st.source with filename := true } }
      else st
    | none => st
  else st

/-- The whole per-lesson resolution pass: sidecar, then container, then
filename, on a fresh lesson. -/
def resolveLesson (mediaInfoAvailable : Bool) (inp : LessonInputs) :
    LessonMeta :=
  applyFilename inp.filename
    (applyMedia mediaInfoAvailable inp.probe
      (applyEpisodeNfo {} inp.nfoCandidates))

/-! ## Per-course resolution (lines 256-275) -/

/-- Resolved course-level fields and provenance flags. -/
structure CourseFields where
  name : String
  description : Option String := none
  instructor : Option String := none
  year : Option String := none
  source : MetadataSource := {}
  deriving DecidableEq, Repr

/-- Course-level resolution: seed the placeholder name
(`f"{course_name}-fromdir"`, `directory_name` flag set), then consult the
first glob match via `find_nfo_file`; a truthy sidecar name overwrites the
placeholder, sets `nfo` and clears `directory_name`; truthy description,
instructor and year are copied. -/
def resolveCourse (dirname : String) (nfo_files : List NfoInput) :
    CourseFields :=
  let base : CourseFields :=
    { name := dirname ++ "-fromdir", source := { directory_name := true } }
  match find_nfo_file nfo_files with
  | none => base
  | some f =>
    match parse_tvshow_nfo f with
    | none => base
    | some d =>
      let c1 :=
        match d.name with
        | some s =>
          if !s.isEmpty then
            { base with
                name := s,
                source := { base.source with directory_name := false,
                                             nfo := true } }
          else base
        | none => base
      let c2 :=
        if truthyStr d.description then { c1 with description := d.description }
        else c1
      let c3 :=
        if truthyStr d.instructor then { c2 with instructor := d.instructor }
        else c2
      if truthyStr d.year then { c3 with year := d.year } else c3

/-! ## `scan_directory` -/

/-- One lesson in the scanner's output. -/
structure LessonOut where
  filename : String
  title : Option String
  duration : Option Int
  description : Option String
  source : MetadataSource
  deriving DecidableEq, Repr

/-- One course in the scanner's output. -/
structure CourseOut where
  dirpath : String
  name : String
  description : Option String
  instructor : Option String
  year : Option String
  source : MetadataSource
  lessons : List LessonOut
  deriving DecidableEq, Repr

/-- One immediate child of the library root, with everything the scan
reads from the filesystem below it: whether it is a directory, its name,
the paths of all files found under it by `os.walk`, the course-level
sidecar glob result, and the existing sidecar candidates for each video
file. -/
structure DirEntry where
  isDir : Bool
  name : String
  files : List String
  courseNfo : List NfoInput
  lessonNfo : String → List NfoInput

/-- Stable insertion of `a` into `l`, keeping earlier elements that
compare `le` to `a` in front (so the fold below is a stable sort, like
Python `sorted`). -/
def insOrd {α : Type} (le : α → α → Bool) (a : α) : List α → List α
  | [] => [a]
  | b :: bs => if le b a then b :: insOrd le a bs else a :: b :: bs

/-- Stable sort by `le` (model of Python `sorted`). -/
def sortLe {α : Type} (le : α → α → Bool) (l : List α) : List α :=
  l.foldl (fun acc a => insOrd le a acc) []

/-- Build one output lesson from a video path: construct, resolve, keep. -/
def lessonOf (mediaInfoAvailable : Bool) (probeOf : String → Probe)
    (e : DirEntry) (v : String) : LessonOut :=
  let m := resolveLesson mediaInfoAvailable
    { filename := pathName v, nfoCandidates := e.lessonNfo v,
      probe := probeOf v }
  { filename := pathName v, title := m.title, duration := m.duration,
    description := m.description, source := m.source }

/-- The loop body of `scan_directory` for one child of the library root:
skip non-directories; collect the video files; skip the directory when
there are none; otherwise resolve the course fields and, for every video
file in sorted order, resolve a lesson. -/
def scanOne (mediaInfoAvailable : Bool) (probeOf : String → Probe)
    (e : DirEntry) : Option CourseOut :=
  if !e.isDir then none
  else
    let video_files := e.files.filter is_video_file
    if video_files.isEmpty then none
    else
      let cf := resolveCourse e.name e.courseNfo
      some { dirpath := e.name, name := cf.name,
             description := cf.description, instructor := cf.instructor,
             year := cf.year, source := cf.source,
             lessons := (sortLe (fun a b => a ≤ b) video_files).map
               (lessonOf mediaInfoAvailable probeOf e) }

/-- `scan_directory`: iterate the library root's children in sorted
order, emitting a course for exactly the directories `scanOne` accepts. -/
def scan_directory (mediaInfoAvailable : Bool) (probeOf : String → Probe)
    (entries : List DirEntry) : List CourseOut :=
  (sortLe (fun a b => a.name ≤ b.name) entries).filterMap
    (scanOne mediaInfoAvailable probeOf)

/-! ## Source observers

For each precedence source, the value it supplies for a field: the value
the resolver would accept from that source (truthiness filters included),
or `none` when the source supplies nothing. -/

/-- First `some`, `b` otherwise (the precedence combinator). -/
def optOr {α : Type} : Option α → Option α → Option α
  | some a, _ => some a
  | none, b => b

/-- Title supplied by the chosen lesson sidecar document. -/
def sidecarTitleOf (cands : List NfoInput) : Option String :=
  match cands with
  | [] => none
  | c :: _ =>
    match parse_episode_nfo c with
    | none => none
    | some d => if truthyStr d.title then d.title else none

/-- Duration (seconds) supplied by the chosen lesson sidecar document. -/
def sidecarDurationOf (cands : List NfoInput) : Option Int :=
  match cands with
  | [] => none
  | c :: _ =>
    match parse_episode_nfo c with
    | none => none
    | some d => if truthyInt d.duration then d.duration else none

/-- Description supplied by the chosen lesson sidecar document. -/
def sidecarDescriptionOf (cands : List NfoInput) : Option String :=
  match cands with
  | [] => none
  | c :: _ =>
    match parse_episode_nfo c with
    | none => none
    | some d => if truthyStr d.description then d.description else none

/-- Embedded title supplied by the container metadata reader. -/
def containerTitleOf (mediaInfoAvailable : Bool) (p : Probe) :
    Option String :=
  match extract_media_metadata mediaInfoAvailable p with
  | none => none
  | some m => if truthyStr m.title then m.title else none

/-- Duration (seconds) supplied by the container metadata reader. -/
def containerDurationOf (mediaInfoAvailable : Bool) (p : Probe) :
    Option Int :=
  match extract_media_metadata mediaInfoAvailable p with
  | none => none
  | some m =>
    match m.duration with
    | some v => if v != 0 then some (v : Int) else none
    | none => none

/-- Title supplied by filename parsing (truthy results only). -/
def filenameTitleOf (f : String) : Option String :=
  match parse_lesson_filename f with
  | none => none
  | some t => if !t.isEmpty then some t else none

/-- Course name supplied by the course-level sidecar document. -/
def courseNameOf (nfo_files : List NfoInput) : Option String :=
  match find_nfo_file nfo_files with
  | none => none
  | some f =>
    match parse_tvshow_nfo f with
    | none => none
    | some d =>
      match d.name with
      | some s => if !s.isEmpty then some s else none
      | none => none

/-- Course description supplied by the course-level sidecar document. -/
def courseDescriptionOf (nfo_files : List NfoInput) : Option String :=
  match find_nfo_file nfo_files with
  | none => none
  | some f =>
    match parse_tvshow_nfo f with
    | none => none
    | some d => if truthyStr d.description then d.description else none

/-- Course instructor supplied by the course-level sidecar document. -/
def courseInstructorOf (nfo_files : List NfoInput) : Option String :=
  match find_nfo_file nfo_files with
  | none => none
  | some f =>
    match parse_tvshow_nfo f with
    | none => none
    | some d => if truthyStr d.instructor then d.instructor else none

/-- Course year supplied by the course-level sidecar document. -/
def courseYearOf (nfo_files : List NfoInput) : Option String :=
  match find_nfo_file nfo_files with
  | none => none
  | some f =>
    match parse_tvshow_nfo f with
    | none => none
    | some d => if truthyStr d.year then d.year else none

/-! ## Write-traced resolution

Instrumented copies of the resolution passes that additionally log, in
program order, which field each conditional assignment wrote. They mirror
the plain functions statement for statement; `resolveLessonT_eq` and
`resolveCourseT_eq` relate the two. -/

/-- Identifier of a resolvable field of a lesson (`l…`) or course (`c…`). -/
inductive FieldId where
  | ltitle
  | lduration
  | ldescription
  | cname
  | cdescription
  | cinstructor
  | cyear
  deriving DecidableEq, Repr

/-- Traced sidecar step: `applyEpisodeNfo` plus the log of field writes. -/
def applyEpisodeNfoT (st : LessonMeta) (cands : List NfoInput) :
    LessonMeta × List FieldId :=
  match cands with
  | [] => (st, [])
  | c :: _ =>
    match parse_episode_nfo c with
    | none => (st, [])
    | some d =>
      let p1 : LessonMeta × List FieldId :=
        if truthyStr d.title then
          ({ st with title := d.title,
                     source := { st.source with nfo := true } },
           [FieldId.ltitle])
        else (st, [])
      let p2 : LessonMeta × List FieldId :=
        if truthyInt d.duration && pyNotInt p1.1.duration then
          ({ p1.1 with duration := d.duration }, p1.2 ++ [FieldId.lduration])
        else p1
      if truthyStr d.description then
        ({ p2.1 with description := d.description },
         p2.2 ++ [FieldId.ldescription])
      else p2

/-- Traced container step. -/
def applyMediaT (mediaInfoAvailable : Bool) (p : Probe) (st : LessonMeta) :
    LessonMeta × List FieldId :=
  if !mediaInfoAvailable then (st, [])
  else
    match extract_media_metadata mediaInfoAvailable p with
    | none => (st, [])
    | some m =>
      let p1 : LessonMeta × List FieldId :=
        match m.duration with
        | some v =>
          if pyNotInt st.duration && v != 0 then
            ({ st with duration := some (v : Int) }, [FieldId.lduration])
          else (st, [])
        | none => (st, [])
      match m.title with
      | some t =>
        if pyNotStr p1.1.title && !t.isEmpty then
          ({ p1.1 with title := some t,
                       source := { p1.1.source with file_tags := true } },
           p1.2 ++ [FieldId.ltitle])
        else p1
      | none => p1

/-- Traced filename step. -/
def applyFilenameT (fname : String) (st : LessonMeta) :
    LessonMeta × List FieldId :=
  if pyNotStr st.title then
    match parse_lesson_filename fname with
    | some t =>
      if !t.isEmpty then
        ({ st with title := some t,
                   source := { st.source with filename := true } },
         [FieldId.ltitle])
      else (st, [])
    | none => (st, [])
  else (st, [])

/-- Traced per-lesson resolution pass. -/
def resolveLessonT (mediaInfoAvailable : Bool) (inp : LessonInputs) :
    LessonMeta × List FieldId :=
  let p1 := applyEpisodeNfoT {} inp.nfoCandidates
  let p2 := applyMediaT mediaInfoAvailable inp.probe p1.1
  let p3 := applyFilenameT inp.filename p2.1
  (p3.1, p1.2 ++ p2.2 ++ p3.2)

/-- Traced per-course resolution pass (writes of the resolution proper;
the placeholder name is the construction-time default, not a write). -/
def resolveCourseT (dirname : String) (nfo_files : List NfoInput) :
    CourseFields × List FieldId :=
  let base : CourseFields :=
    { name := dirname ++ "-fromdir", source := { directory_name := true } }
  match find_nfo_file nfo_files with
  | none => (base, [])
  | some f =>
    match parse_tvshow_nfo f with
    | none => (base, [])
    | some d =>
      let p1 : CourseFields × List FieldId :=
        match d.name with
        | some s =>
          if !s.isEmpty then
            ({ base with
                 name := s,
                 source := { base.source with directory_name := false,
                                              nfo := true } },
             [FieldId.cname])
          else (base, [])
        | none => (base, [])
      let p2 : CourseFields × List FieldId :=
        if truthyStr d.description then
          ({ p1.1 with description := d.description },
           p1.2 ++ [FieldId.cdescription])
        else p1
      let p3 : CourseFields × List FieldId :=
        if truthyStr d.instructor then
          ({ p2.1 with instructor := d.instructor },
           p2.2 ++ [FieldId.cinstructor])
        else p2
      if truthyStr d.year then
        ({ p3.1 with year := d.year }, p3.2 ++ [FieldId.cyear])
      else p3

/-- A state is clean when its optional-string title is never the empty
string and its optional duration is never zero: Python truthiness and
`isSome` then agree. Every state the resolver builds is clean. -/
def cleanState (st : LessonMeta) : Prop :=
  (∀ s, st.title = some s → s.isEmpty = false) ∧
    (∀ v, st.duration = some v → v ≠ 0)

/-! ## Concrete example inputs (used by witnesses and counterexamples) -/

/-- A lesson sidecar document supplying only a title. -/
def sidecarDocTitleT : NfoInput := .doc [⟨"title", some "T"⟩]

/-- Lesson inputs whose sidecar supplies title `T`. -/
def lessonInpSidecarTitle : LessonInputs :=
  { filename := "x.mp4", nfoCandidates := [sidecarDocTitleT], probe := .fail }

/-- A lesson sidecar document supplying only `runtime` 45 (minutes). -/
def sidecarDocRuntime45 : NfoInput := .doc [⟨"runtime", some "45"⟩]

/-- Lesson inputs whose sidecar supplies only a 45-minute runtime. -/
def lessonInpRuntime45 : LessonInputs :=
  { filename := "a.mp4", nfoCandidates := [sidecarDocRuntime45],
    probe := .fail }

/-- A course sidecar document naming the course `Algebra I`. -/
def courseDocAlgebra : NfoInput :=
  .doc [⟨"title", some "Algebra I"⟩, ⟨"director", some "Ada"⟩]

/-- A library child directory holding no video files. -/
def dirNoVideo : DirEntry :=
  { isDir := true, name := "docs",
    files := ["docs/notes.txt", "docs/readme.md"],
    courseNfo := [], lessonNfo := fun _ => [] }

/-- A lesson sidecar document supplying a negative runtime (-5 minutes). -/
def sidecarDocRuntimeNeg : NfoInput := .doc [⟨"runtime", some "-5"⟩]

/-- A library child directory with one video whose sidecar supplies the
negative runtime. -/
def dirNegRuntime : DirEntry :=
  { isDir := true, name := "course1", files := ["course1/a.mp4"],
    courseNfo := [], lessonNfo := fun _ => [sidecarDocRuntimeNeg] }

/-- The lesson the scanner produces for `dirNegRuntime`. -/
def lessonNegOut : LessonOut :=
  { filename := "a.mp4", title := some "a", duration := some (-300),
    description := none, source := { filename := true } }

/-- The course the scanner produces for `dirNegRuntime`. -/
def courseNegOut : CourseOut :=
  { dirpath := "course1", name := "course1-fromdir", description := none,
    instructor := none, year := none,
    source := { directory_name := true }, lessons := [lessonNegOut] }

/-! ## Characterization lemmas -/

theorem truthyStr_isSome {o : Option String} (h : truthyStr o = true) :
    o.isSome = true := by
  cases o <;> simp_all [truthyStr]

theorem truthyInt_isSome {o : Option Int} (h : truthyInt o = true) :
    o.isSome = true := by
  cases o <;> simp_all [truthyInt]

/-- The sidecar step, from a fresh lesson, yields exactly the sidecar
observers, setting the `nfo` flag iff the sidecar supplied a title. -/
theorem applyEpisodeNfo_empty (cands : List NfoInput) :
    applyEpisodeNfo {} cands =
      { title := sidecarTitleOf cands,
        duration := sidecarDurationOf cands,
        description := sidecarDescriptionOf cands,
        source := { nfo := (sidecarTitleOf cands).isSome } } := by
  cases cands with
  | nil => rfl
  | cons c rest =>
    simp only [applyEpisodeNfo, sidecarTitleOf, sidecarDurationOf,
      sidecarDescriptionOf]
    cases hp : parse_episode_nfo c with
    | none => rfl
    | some d =>
      by_cases ht : truthyStr d.title
      · by_cases hd : truthyInt d.duration <;>
          by_cases hds : truthyStr d.description <;>
            simp_all [pyNotInt, truthyInt, truthyStr_isSome ht]
      · by_cases hd : truthyInt d.duration <;>
          by_cases hds : truthyStr d.description <;>
            simp_all [pyNotInt, truthyInt]

theorem optOr_none_right {α : Type} (o : Option α) : optOr o none = o := by
  cases o <;> rfl

theorem pyNotStr_of_clean {st : LessonMeta}
    (h : ∀ s, st.title = some s → s.isEmpty = false) :
    pyNotStr st.title = st.title.isNone := by
  cases hst : st.title with
  | none => rfl
  | some s => simp [pyNotStr, truthyStr, h s hst]

theorem pyNotInt_of_clean {st : LessonMeta}
    (h : ∀ v, st.duration = some v → v ≠ 0) :
    pyNotInt st.duration = st.duration.isNone := by
  cases hst : st.duration with
  | none => rfl
  | some v => simp [pyNotInt, truthyInt, h v hst]

/-- The container step on a clean state: duration and title each take the
container's value exactly when still absent, and `file_tags` is set iff
the container title is the one actually used. -/
theorem applyMedia_eq (cap : Bool) (p : Probe) (st : LessonMeta)
    (hc : cleanState st) :
    applyMedia cap p st =
      { st with
          title := optOr st.title (containerTitleOf cap p),
          duration := optOr st.duration (containerDurationOf cap p),
          source := { st.source with
            file_tags := st.source.file_tags
              || (st.title.isNone && (containerTitleOf cap p).isSome) } } := by
  obtain ⟨t0, d0, desc0, src0⟩ := st
  obtain ⟨n0, ft0, fn0, dn0⟩ := src0
  obtain ⟨hT, hD⟩ := hc
  unfold applyMedia containerTitleOf containerDurationOf
  cases hE : extract_media_metadata cap p with
  | none =>
    cases cap <;>
      simp_all [extract_media_metadata, optOr_none_right]
  | some m =>
    have hcap : cap = true := by
      cases cap <;> simp_all [extract_media_metadata]
    subst hcap
    obtain ⟨md, mt⟩ := m
    cases md with
    | none =>
      cases mt with
      | none =>
        cases t0 <;> cases d0 <;>
          simp_all [pyNotStr, pyNotInt, truthyStr, truthyInt, optOr,
            bne_iff_ne]
      | some t =>
        by_cases hte : t.isEmpty <;> cases t0 <;> cases d0 <;>
          simp_all [pyNotStr, pyNotInt, truthyStr, truthyInt, optOr,
            bne_iff_ne]
    | some v =>
      by_cases hv : v = 0
      · cases mt with
        | none =>
          cases t0 <;> cases d0 <;>
            simp_all [pyNotStr, pyNotInt, truthyStr, truthyInt, optOr,
              bne_iff_ne]
        | some t =>
          by_cases hte : t.isEmpty <;> cases t0 <;> cases d0 <;>
            simp_all [pyNotStr, pyNotInt, truthyStr, truthyInt, optOr,
              bne_iff_ne]
      · cases mt with
        | none =>
          cases t0 <;> cases d0 <;>
            simp_all [pyNotStr, pyNotInt, truthyStr, truthyInt, optOr,
              bne_iff_ne]
        | some t =>
          by_cases hte : t.isEmpty <;> cases t0 <;> cases d0 <;>
            simp_all [pyNotStr, pyNotInt, truthyStr, truthyInt, optOr,
              bne_iff_ne]

/-- The filename step on a clean state: the title takes the parsed value
exactly when still absent, and the `filename` flag records that. -/
theorem applyFilename_eq (f : String) (st : LessonMeta)
    (hT : ∀ s, st.title = some s → s.isEmpty = false) :
    applyFilename f st =
      { st with
          title := optOr st.title (filenameTitleOf f),
          source := { st.source with
            filename := st.source.filename
              || (st.title.isNone && (filenameTitleOf f).isSome) } } := by
  obtain ⟨t0, d0, desc0, src0⟩ := st
  obtain ⟨n0, ft0, fn0, dn0⟩ := src0
  unfold applyFilename filenameTitleOf
  cases hp : parse_lesson_filename f with
  | none =>
    cases t0 <;> simp_all [pyNotStr, truthyStr, optOr]
  | some t =>
    by_cases hte : t.isEmpty <;> cases t0 <;>
      simp_all [pyNotStr, truthyStr, optOr]

theorem optOr_assoc {α : Type} (a b c : Option α) :
    optOr (optOr a b) c = optOr a (optOr b c) := by
  cases a <;> rfl

theorem optOr_isNone {α : Type} (a b : Option α) :
    (optOr a b).isNone = (a.isNone && b.isNone) := by
  cases a <;> cases b <;> rfl

theorem sidecarTitleOf_clean (cands : List NfoInput) (s : String)
    (h : sidecarTitleOf cands = some s) : s.isEmpty = false := by
  unfold sidecarTitleOf at h
  repeat' split at h
  all_goals simp_all [truthyStr]

theorem sidecarDurationOf_clean (cands : List NfoInput) (v : Int)
    (h : sidecarDurationOf cands = some v) : v ≠ 0 := by
  unfold sidecarDurationOf at h
  repeat' split at h
  all_goals simp_all [truthyInt]

theorem containerTitleOf_clean (cap : Bool) (p : Probe) (s : String)
    (h : containerTitleOf cap p = some s) : s.isEmpty = false := by
  unfold containerTitleOf at h
  repeat' split at h
  all_goals simp_all [truthyStr]

theorem containerDurationOf_clean (cap : Bool) (p : Probe) (v : Int)
    (h : containerDurationOf cap p = some v) : v ≠ 0 := by
  unfold containerDurationOf at h
  repeat' split at h
  all_goals try simp_all
  all_goals omega

theorem filenameTitleOf_clean (f : String) (s : String)
    (h : filenameTitleOf f = some s) : s.isEmpty = false := by
  unfold filenameTitleOf at h
  repeat' split at h
  all_goals simp_all

theorem optOr_clean_str {a b : Option String}
    (ha : ∀ s, a = some s → s.isEmpty = false)
    (hb : ∀ s, b = some s → s.isEmpty = false) :
    ∀ s, optOr a b = some s → s.isEmpty = false := by
  intro s h
  cases hA : a with
  | some x =>
    rw [hA] at h
    have hx : x = s := by simpa [optOr] using h
    subst hx
    exact ha x hA
  | none =>
    rw [hA] at h
    exact hb s (by simpa [optOr] using h)

/-- Master characterization of the per-lesson resolver: every field is
the first-present source value in precedence order, and each title flag
is set exactly when its source won the title. -/
theorem resolveLesson_eq (cap : Bool) (inp : LessonInputs) :
    resolveLesson cap inp =
      { title := optOr (sidecarTitleOf inp.nfoCandidates)
          (optOr (containerTitleOf cap inp.probe)
            (filenameTitleOf inp.filename)),
        duration := optOr (sidecarDurationOf inp.nfoCandidates)
          (containerDurationOf cap inp.probe),
        description := sidecarDescriptionOf inp.nfoCandidates,
        source := { nfo := (sidecarTitleOf inp.nfoCandidates).isSome,
                    file_tags := (sidecarTitleOf inp.nfoCandidates).isNone
                      && (containerTitleOf cap inp.probe).isSome,
                    filename := (sidecarTitleOf inp.nfoCandidates).isNone
                      && (containerTitleOf cap inp.probe).isNone
                      && (filenameTitleOf inp.filename).isSome,
                    directory_name := false } } := by
  unfold resolveLesson
  rw [applyEpisodeNfo_empty]
  rw [applyMedia_eq cap inp.probe _
    ⟨fun s h => sidecarTitleOf_clean inp.nfoCandidates s h,
     fun v h => sidecarDurationOf_clean inp.nfoCandidates v h⟩]
  rw [applyFilename_eq inp.filename _
    (optOr_clean_str (fun s h => sidecarTitleOf_clean inp.nfoCandidates s h)
      (fun s h => containerTitleOf_clean cap inp.probe s h))]
  simp [optOr_assoc, optOr_isNone, Bool.and_assoc]

/-- Master characterization of the per-course resolver: sidecar values
win where supplied, the placeholder name and `directory_name` flag stand
otherwise. -/
theorem resolveCourse_eq (dirname : String) (nfos : List NfoInput) :
    resolveCourse dirname nfos =
      { name := (courseNameOf nfos).getD (dirname ++ "-fromdir"),
        description := courseDescriptionOf nfos,
        instructor := courseInstructorOf nfos,
        year := courseYearOf nfos,
        source := { nfo := (courseNameOf nfos).isSome,
                    file_tags := false,
                    filename := false,
                    directory_name := (courseNameOf nfos).isNone } } := by
  unfold resolveCourse courseNameOf courseDescriptionOf courseInstructorOf
    courseYearOf
  cases nfos with
  | nil => rfl
  | cons f rest =>
    dsimp only [find_nfo_file, List.head?]
    cases hp : parse_tvshow_nfo f with
    | none => rfl
    | some d =>
      dsimp only []
      cases hn : d.name with
      | none =>
        by_cases h2 : truthyStr d.description <;>
          by_cases h3 : truthyStr d.instructor <;>
            by_cases h4 : truthyStr d.year <;>
              simp_all
      | some s =>
        by_cases h1 : s.isEmpty <;>
          by_cases h2 : truthyStr d.description <;>
            by_cases h3 : truthyStr d.instructor <;>
              by_cases h4 : truthyStr d.year <;>
                simp_all

/-- The traced sidecar step computes the plain step plus the write log of
the three sidecar-supplied fields. -/
theorem applyEpisodeNfoT_eq (cands : List NfoInput) :
    applyEpisodeNfoT {} cands =
      (applyEpisodeNfo {} cands,
        (if (sidecarTitleOf cands).isSome then [FieldId.ltitle] else [])
        ++ (if (sidecarDurationOf cands).isSome then [FieldId.lduration]
            else [])
        ++ (if (sidecarDescriptionOf cands).isSome then [FieldId.ldescription]
            else [])) := by
  cases cands with
  | nil => rfl
  | cons c rest =>
    cases hp : parse_episode_nfo c with
    | none =>
      simp [applyEpisodeNfoT, applyEpisodeNfo, sidecarTitleOf,
        sidecarDurationOf, sidecarDescriptionOf, hp]
    | some d =>
      simp only [applyEpisodeNfoT, applyEpisodeNfo, sidecarTitleOf,
        sidecarDurationOf, sidecarDescriptionOf, hp]
      by_cases ht : truthyStr d.title <;>
        by_cases hd : truthyInt d.duration <;>
          by_cases hds : truthyStr d.description <;>
            simp_all [pyNotInt, truthyInt, truthyStr_isSome,
              truthyInt_isSome]

/-- The traced container step computes the plain step plus the write log
of the container-supplied duration and title. -/
theorem applyMediaT_eq (cap : Bool) (p : Probe) (st : LessonMeta)
    (hc : cleanState st) :
    applyMediaT cap p st =
      (applyMedia cap p st,
        (if st.duration.isNone && (containerDurationOf cap p).isSome then
          [FieldId.lduration] else [])
        ++ (if st.title.isNone && (containerTitleOf cap p).isSome then
          [FieldId.ltitle] else [])) := by
  obtain ⟨t0, d0, desc0, src0⟩ := st
  obtain ⟨n0, ft0, fn0, dn0⟩ := src0
  obtain ⟨hT, hD⟩ := hc
  unfold applyMediaT applyMedia containerTitleOf containerDurationOf
  cases hE : extract_media_metadata cap p with
  | none =>
    cases cap <;> simp_all [extract_media_metadata]
  | some m =>
    have hcap : cap = true := by
      cases cap <;> simp_all [extract_media_metadata]
    subst hcap
    obtain ⟨md, mt⟩ := m
    cases md with
    | none =>
      cases mt with
      | none =>
        cases t0 <;> cases d0 <;>
          simp_all [pyNotStr, pyNotInt, truthyStr, truthyInt, bne_iff_ne]
      | some t =>
        by_cases hte : t.isEmpty <;> cases t0 <;> cases d0 <;>
          simp_all [pyNotStr, pyNotInt, truthyStr, truthyInt, bne_iff_ne]
    | some v =>
      by_cases hv : v = 0
      · cases mt with
        | none =>
          cases t0 <;> cases d0 <;>
            simp_all [pyNotStr, pyNotInt, truthyStr, truthyInt, bne_iff_ne]
        | some t =>
          by_cases hte : t.isEmpty <;> cases t0 <;> cases d0 <;>
            simp_all [pyNotStr, pyNotInt, truthyStr, truthyInt, bne_iff_ne]
      · cases mt with
        | none =>
          cases t0 <;> cases d0 <;>
            simp_all [pyNotStr, pyNotInt, truthyStr, truthyInt, bne_iff_ne]
        | some t =>
          by_cases hte : t.isEmpty <;> cases t0 <;> cases d0 <;>
            simp_all [pyNotStr, pyNotInt, truthyStr, truthyInt, bne_iff_ne]

/-- The traced filename step computes the plain step plus the write log
of the filename-derived title. -/
theorem applyFilenameT_eq (f : String) (st : LessonMeta)
    (hT : ∀ s, st.title = some s → s.isEmpty = false) :
    applyFilenameT f st =
      (applyFilename f st,
        if st.title.isNone && (filenameTitleOf f).isSome then
          [FieldId.ltitle] else []) := by
  obtain ⟨t0, d0, desc0, src0⟩ := st
  obtain ⟨n0, ft0, fn0, dn0⟩ := src0
  unfold applyFilenameT applyFilename filenameTitleOf
  cases hp : parse_lesson_filename f with
  | none =>
    cases t0 <;> simp_all [pyNotStr, truthyStr]
  | some t =>
    by_cases hte : t.isEmpty <;> cases t0 <;>
      simp_all [pyNotStr, truthyStr]

/-- The traced per-lesson pass computes the plain resolver plus a write
log whose entries are governed by the source observers: the entry for a
field appears exactly when that source's value was still needed and
present. -/
theorem resolveLessonT_eq (cap : Bool) (inp : LessonInputs) :
    resolveLessonT cap inp =
      (resolveLesson cap inp,
        ((if (sidecarTitleOf inp.nfoCandidates).isSome then [FieldId.ltitle]
          else [])
         ++ (if (sidecarDurationOf inp.nfoCandidates).isSome then
              [FieldId.lduration] else [])
         ++ (if (sidecarDescriptionOf inp.nfoCandidates).isSome then
              [FieldId.ldescription] else []))
        ++ ((if (sidecarDurationOf inp.nfoCandidates).isNone
                && (containerDurationOf cap inp.probe).isSome then
              [FieldId.lduration] else [])
            ++ (if (sidecarTitleOf inp.nfoCandidates).isNone
                  && (containerTitleOf cap inp.probe).isSome then
                [FieldId.ltitle] else []))
        ++ (if (sidecarTitleOf inp.nfoCandidates).isNone
              && (containerTitleOf cap inp.probe).isNone
              && (filenameTitleOf inp.filename).isSome then
            [FieldId.ltitle] else [])) := by
  have hclean1 : cleanState (applyEpisodeNfo {} inp.nfoCandidates) := by
    rw [applyEpisodeNfo_empty]
    exact ⟨fun s h => sidecarTitleOf_clean inp.nfoCandidates s h,
      fun v h => sidecarDurationOf_clean inp.nfoCandidates v h⟩
  have hclean2 : cleanState (applyMedia cap inp.probe
      (applyEpisodeNfo {} inp.nfoCandidates)) := by
    rw [applyMedia_eq cap inp.probe _ hclean1, applyEpisodeNfo_empty]
    exact ⟨optOr_clean_str
        (fun s h => sidecarTitleOf_clean inp.nfoCandidates s h)
        (fun s h => containerTitleOf_clean cap inp.probe s h),
      fun v h => by
        rcases hsd : sidecarDurationOf inp.nfoCandidates with _ | w
        · rw [hsd] at h
          exact containerDurationOf_clean cap inp.probe v
            (by simpa [optOr] using h)
        · rw [hsd] at h
          have : w = v := by simpa [optOr] using h
          subst this
          exact sidecarDurationOf_clean inp.nfoCandidates w hsd⟩
  unfold resolveLessonT resolveLesson
  rw [applyEpisodeNfoT_eq]
  dsimp only []
  rw [applyMediaT_eq cap inp.probe _ hclean1]
  dsimp only []
  rw [applyFilenameT_eq inp.filename _ hclean2.1]
  rw [applyMedia_eq cap inp.probe _ hclean1]
  rw [applyEpisodeNfo_empty]
  simp [optOr_isNone, Bool.and_assoc]

/-- The traced per-course pass computes the plain resolver plus the write
log of the four sidecar-suppliable course fields. -/
theorem resolveCourseT_eq (dirname : String) (nfos : List NfoInput) :
    resolveCourseT dirname nfos =
      (resolveCourse dirname nfos,
        ((if (courseNameOf nfos).isSome then [FieldId.cname] else [])
         ++ (if (courseDescriptionOf nfos).isSome then [FieldId.cdescription]
             else []))
        ++ (if (courseInstructorOf nfos).isSome then [FieldId.cinstructor]
            else [])
        ++ (if (courseYearOf nfos).isSome then [FieldId.cyear] else [])) := by
  unfold resolveCourseT resolveCourse courseNameOf courseDescriptionOf
    courseInstructorOf courseYearOf
  cases nfos with
  | nil => rfl
  | cons f rest =>
    dsimp only [find_nfo_file, List.head?]
    cases hp : parse_tvshow_nfo f with
    | none => rfl
    | some d =>
      dsimp only []
      cases hn : d.name with
      | none =>
        by_cases h2 : truthyStr d.description <;>
          by_cases h3 : truthyStr d.instructor <;>
            by_cases h4 : truthyStr d.year <;>
              simp_all [truthyStr_isSome]
      | some s =>
        by_cases h1 : s.isEmpty <;>
          by_cases h2 : truthyStr d.description <;>
            by_cases h3 : truthyStr d.instructor <;>
              by_cases h4 : truthyStr d.year <;>
                simp_all [truthyStr_isSome]

theorem insOrd_length {α : Type} (le : α → α → Bool) (a : α)
    (l : List α) : (insOrd le a l).length = l.length + 1 := by
  induction l with
  | nil => rfl
  | cons b bs ih =>
    unfold insOrd
    split <;> simp [ih]

theorem sortLe_foldl_length {α : Type} (le : α → α → Bool) (l acc : List α) :
    (l.foldl (fun acc a => insOrd le a acc) acc).length
      = acc.length + l.length := by
  induction l generalizing acc with
  | nil => simp
  | cons b bs ih =>
    rw [List.foldl_cons, ih, insOrd_length, List.length_cons]
    omega

theorem sortLe_length {α : Type} (le : α → α → Bool) (l : List α) :
    (sortLe le l).length = l.length := by
  unfold sortLe
  simp [sortLe_foldl_length]

theorem mem_insOrd {α : Type} (le : α → α → Bool) (a b : α) (l : List α) :
    a ∈ insOrd le b l ↔ a = b ∨ a ∈ l := by
  induction l with
  | nil => simp [insOrd]
  | cons c cs ih =>
    unfold insOrd
    split <;> simp [ih]
    tauto

theorem mem_sortLe_foldl {α : Type} (le : α → α → Bool) (a : α)
    (l acc : List α) :
    a ∈ l.foldl (fun acc b => insOrd le b acc) acc ↔ a ∈ acc ∨ a ∈ l := by
  induction l generalizing acc with
  | nil => simp
  | cons b bs ih =>
    simp only [List.foldl_cons, ih, mem_insOrd, List.mem_cons]
    tauto

theorem mem_sortLe {α : Type} (le : α → α → Bool) (a : α) (l : List α) :
    a ∈ sortLe le l ↔ a ∈ l := by
  unfold sortLe
  simp [mem_sortLe_foldl]

/-- The resolver never stores a zero duration: both duration sources are
filtered through Python truthiness, which drops `0`. -/
theorem resolveLesson_duration_ne_zero (cap : Bool) (inp : LessonInputs) :
    (resolveLesson cap inp).duration ≠ some 0 := by
  rw [resolveLesson_eq]
  intro h
  simp only at h
  rcases hsd : sidecarDurationOf inp.nfoCandidates with _ | v
  · rw [hsd] at h
    rcases hcd : containerDurationOf cap inp.probe with _ | w
    · rw [hcd] at h; simp [optOr] at h
    · rw [hcd] at h
      have hw : w = 0 := by simpa [optOr] using h
      exact containerDurationOf_clean cap inp.probe w hcd hw
  · rw [hsd] at h
    have hv : v = 0 := by simpa [optOr] using h
    exact sidecarDurationOf_clean inp.nfoCandidates v hsd hv

theorem courseNameOf_clean (nfos : List NfoInput) (s : String)
    (h : courseNameOf nfos = some s) : s.isEmpty = false := by
  unfold courseNameOf at h
  repeat' split at h
  all_goals simp_all

/-! ## Claims -/

/-- C1: for every lesson, the resolved title follows the precedence chain
sidecar → container embedded title → filename-derived title; the winning
source sets exactly its provenance flag (`nfo`, `file_tags`, `filename`),
and when no source supplies a title the title stays absent with no title
flag set. -/
theorem C1_title_precedence (cap : Bool) (inp : LessonInputs) :
    ((sidecarTitleOf inp.nfoCandidates).isSome →
      (resolveLesson cap inp).title = sidecarTitleOf inp.nfoCandidates ∧
      (resolveLesson cap inp).source.nfo = true ∧
      (resolveLesson cap inp).source.file_tags = false ∧
      (resolveLesson cap inp).source.filename = false) ∧
    (sidecarTitleOf inp.nfoCandidates = none →
      (containerTitleOf cap inp.probe).isSome →
      (resolveLesson cap inp).title = containerTitleOf cap inp.probe ∧
      (resolveLesson cap inp).source.file_tags = true ∧
      (resolveLesson cap inp).source.nfo = false ∧
      (resolveLesson cap inp).source.filename = false) ∧
    (sidecarTitleOf inp.nfoCandidates = none →
      containerTitleOf cap inp.probe = none →
      (filenameTitleOf inp.filename).isSome →
      (resolveLesson cap inp).title = filenameTitleOf inp.filename ∧
      (resolveLesson cap inp).source.filename = true ∧
      (resolveLesson cap inp).source.nfo = false ∧
      (resolveLesson cap inp).source.file_tags = false) ∧
    (sidecarTitleOf inp.nfoCandidates = none →
      containerTitleOf cap inp.probe = none →
      filenameTitleOf inp.filename = none →
      (resolveLesson cap inp).title = none ∧
      (resolveLesson cap inp).source.nfo = false ∧
      (resolveLesson cap inp).source.file_tags = false ∧
      (resolveLesson cap inp).source.filename = false) := by
  rw [resolveLesson_eq]
  rcases hs : sidecarTitleOf inp.nfoCandidates with _ | s <;>
    rcases hct : containerTitleOf cap inp.probe with _ | t <;>
      rcases hf : filenameTitleOf inp.filename with _ | u <;>
        simp_all [optOr]

/-- C1 witness: with a sidecar supplying title `T` (and no container or
filename winner possible), the resolved title is `T` with only the `nfo`
flag set. -/
theorem C1_title_precedence_witness :
    (resolveLesson false lessonInpSidecarTitle).title = some "T" ∧
    (resolveLesson false lessonInpSidecarTitle).source.nfo = true ∧
    (resolveLesson false lessonInpSidecarTitle).source.file_tags = false ∧
    (resolveLesson false lessonInpSidecarTitle).source.filename = false := by
  have h := (C1_title_precedence false lessonInpSidecarTitle).1 (by decide)
  refine ⟨?_, h.2.1, h.2.2.1, h.2.2.2⟩
  rw [h.1]
  decide

/-- C2 counterexample: the sidecar supplies the duration that is actually
used (45 min = 2700 s), yet the `nfo` provenance flag is not set — the
code sets no flag at all when a duration is resolved, contradicting the
claim that the flag matches the duration's source. -/
theorem C2_counterexample :
    sidecarDurationOf lessonInpRuntime45.nfoCandidates = some 2700 ∧
    (resolveLesson false lessonInpRuntime45).duration = some 2700 ∧
    (resolveLesson false lessonInpRuntime45).source.nfo = false ∧
    (resolveLesson false lessonInpRuntime45).source.file_tags = false := by
  decide

/-- C2 amended: the resolved duration is the first non-absent value among
sidecar runtime and container duration, in that order, with no
filename-derived fallback; however, resolving a duration sets no
provenance flag — the `nfo` and `file_tags` flags are functions of title
resolution alone, so they do not indicate the duration's source. -/
theorem C2_duration_order (cap : Bool) (inp : LessonInputs) :
    ((sidecarDurationOf inp.nfoCandidates).isSome →
      (resolveLesson cap inp).duration
        = sidecarDurationOf inp.nfoCandidates) ∧
    (sidecarDurationOf inp.nfoCandidates = none →
      (resolveLesson cap inp).duration
        = containerDurationOf cap inp.probe) ∧
    (resolveLesson cap inp).source.nfo
      = (sidecarTitleOf inp.nfoCandidates).isSome ∧
    (resolveLesson cap inp).source.file_tags
      = ((sidecarTitleOf inp.nfoCandidates).isNone
          && (containerTitleOf cap inp.probe).isSome) := by
  rw [resolveLesson_eq]
  rcases hsd : sidecarDurationOf inp.nfoCandidates with _ | v <;>
    simp_all [optOr]

/-- C2 amended witness: for the 45-minute sidecar runtime, the resolved
duration is the sidecar's 2700 seconds. -/
theorem C2_duration_order_witness :
    (resolveLesson false lessonInpRuntime45).duration = some 2700 := by
  have h := (C2_duration_order false lessonInpRuntime45).1 (by decide)
  rw [h]
  decide

/-- C3: write-once resolution — during one resolution pass each lesson
field (title, duration, description) and each course field (name,
description, instructor, year) is written at most once (write logs of the
traced passes), and a lower-precedence source can never change a field
already resolved from a higher-precedence source: the resolved value is
independent of the lower-precedence data. -/
theorem C3_write_once (cap : Bool) (inp : LessonInputs) (dirname : String)
    (nfos : List NfoInput) :
    ((resolveLessonT cap inp).2.count FieldId.ltitle ≤ 1 ∧
     (resolveLessonT cap inp).2.count FieldId.lduration ≤ 1 ∧
     (resolveLessonT cap inp).2.count FieldId.ldescription ≤ 1) ∧
    ((resolveCourseT dirname nfos).2.count FieldId.cname ≤ 1 ∧
     (resolveCourseT dirname nfos).2.count FieldId.cdescription ≤ 1 ∧
     (resolveCourseT dirname nfos).2.count FieldId.cinstructor ≤ 1 ∧
     (resolveCourseT dirname nfos).2.count FieldId.cyear ≤ 1) ∧
    (∀ t, sidecarTitleOf inp.nfoCandidates = some t →
      ∀ (p2 : Probe) (f2 : String),
        (resolveLesson cap ⟨f2, inp.nfoCandidates, p2⟩).title
          = some t) ∧
    (∀ v, sidecarDurationOf inp.nfoCandidates = some v →
      ∀ p2 : Probe,
        (resolveLesson cap ⟨inp.filename, inp.nfoCandidates, p2⟩).duration
          = some v) ∧
    (∀ t, sidecarTitleOf inp.nfoCandidates = none →
      containerTitleOf cap inp.probe = some t →
      ∀ f2 : String,
        (resolveLesson cap ⟨f2, inp.nfoCandidates, inp.probe⟩).title
          = some t) ∧
    (∀ s, courseNameOf nfos = some s →
      ∀ d2 : String, (resolveCourse d2 nfos).name = s) := by
  refine ⟨?_, ?_, ?_, ?_, ?_, ?_⟩
  · rw [resolveLessonT_eq]
    rcases hs : sidecarTitleOf inp.nfoCandidates with _ | s <;>
      rcases hct : containerTitleOf cap inp.probe with _ | t <;>
        rcases hf : filenameTitleOf inp.filename with _ | u <;>
          rcases hsd : sidecarDurationOf inp.nfoCandidates with _ | v <;>
            rcases hcd : containerDurationOf cap inp.probe with _ | w <;>
              rcases hds :
                  sidecarDescriptionOf inp.nfoCandidates with _ | x <;>
                simp_all [List.count_append]
  · rw [resolveCourseT_eq]
    rcases h1 : courseNameOf nfos with _ | a <;>
      rcases h2 : courseDescriptionOf nfos with _ | b <;>
        rcases h3 : courseInstructorOf nfos with _ | c <;>
          rcases h4 : courseYearOf nfos with _ | d <;>
            simp_all [List.count_append]
  · intro t ht p2 f2
    rw [resolveLesson_eq]
    simp [ht, optOr]
  · intro v hv p2
    rw [resolveLesson_eq]
    simp [hv, optOr]
  · intro t hs hct f2
    rw [resolveLesson_eq]
    simp [hs, hct, optOr]
  · intro s hn d2
    rw [resolveCourse_eq]
    simp [hn]

/-- C3 witness: with a sidecar supplying title `T`, one traced pass logs
at most one title write, and a conflicting filename (which would parse to
`Other`) cannot change the resolved title. -/
theorem C3_write_once_witness :
    (resolveLessonT false lessonInpSidecarTitle).2.count FieldId.ltitle ≤ 1 ∧
    (resolveLesson false
        ⟨"99 - Other.mp4", lessonInpSidecarTitle.nfoCandidates,
          Probe.fail⟩).title = some "T" := by
  have h := C3_write_once false lessonInpSidecarTitle "c" []
  exact ⟨h.1.1, h.2.2.1 "T" (by decide) Probe.fail "99 - Other.mp4"⟩

/-- C4: the spec's examples hold, but `parse_lesson_filename` does NOT
always return absent-or-nonempty: on `05 - .mp4` (stem `05 - `, remainder
all whitespace) the numbered-pattern branch returns
`match.group(1).strip()`, which is the empty string, while the spec's
step 5 (followed literally by `filenameTitleSpec`) yields absent. The
fallback branch converts empty to absent, so the pattern branches missing
that conversion is a code slip against the documented algorithm. -/
theorem C4_filename_empty_string_bug :
    parse_lesson_filename "Lesson 5 - Intro to Sets.mp4"
      = some "Intro to Sets" ∧
    parse_lesson_filename "05 - Variables.mkv" = some "Variables" ∧
    parse_lesson_filename "Overview.mp4" = some "Overview" ∧
    parse_lesson_filename "12.mp4" = none ∧
    parse_lesson_filename "05 - .mp4" = some "" ∧
    filenameTitleSpec "05 - .mp4" = none ∧
    filenameTitleSpec "Lesson 5 - Intro to Sets.mp4"
      = some "Intro to Sets" := by
  refine ⟨?_, ?_, ?_, ?_, ?_, ?_, ?_⟩ <;> decide

/-- C5: duration unit conversion — a numeric sidecar runtime of `v`
minutes becomes `v * 60` seconds, non-numeric or absent runtime text is
ignored, and a container duration of `d` milliseconds becomes `d / 1000`
whole seconds (integer division, truncating). -/
theorem C5_duration_units :
    (∀ (m : EpisodeNfoMeta) (s : String) (v : Int), pyInt s = some v →
      epFold m ⟨"runtime", some s⟩ = { m with duration := some (v * 60) }) ∧
    (∀ (m : EpisodeNfoMeta) (s : String), pyInt s = none →
      epFold m ⟨"runtime", some s⟩ = m) ∧
    (∀ m : EpisodeNfoMeta, epFold m ⟨"runtime", none⟩ = m) ∧
    (∀ (d : Nat) (ti : Option String) (rest : List Track), d ≠ 0 →
      (fillFromFirstGeneral (⟨"General", some d, ti⟩ :: rest)).duration
        = some (d / 1000)) := by
  refine ⟨?_, ?_, ?_, ?_⟩
  · intro m s v h
    simp [epFold, h]
  · intro m s h
    simp [epFold, h]
  · intro m
    simp [epFold]
  · intro d ti rest h
    simp [fillFromFirstGeneral, h, bne_iff_ne]

/-- C5 witness: sidecar runtime `45` gives 2700 seconds; container
durations 125000 ms and 125999 ms both give 125 seconds. -/
theorem C5_duration_units_witness :
    epFold {} ⟨"runtime", some "45"⟩
      = { title := none, description := none, duration := some 2700 } ∧
    (fillFromFirstGeneral [⟨"General", some 125000, none⟩]).duration
      = some 125 ∧
    (fillFromFirstGeneral [⟨"General", some 125999, none⟩]).duration
      = some 125 := by
  refine ⟨?_, ?_, ?_⟩
  · have h := C5_duration_units.1 {} "45" 45 (by decide)
    rw [h]
    decide
  · have h := C5_duration_units.2.2.2 125000 none [] (by decide)
    rw [h]
  · have h := C5_duration_units.2.2.2 125999 none [] (by decide)
    rw [h]

/-- C6: the course name is the sidecar's name when supplied (with the
`nfo` flag set and the `directory_name` default flag cleared), and the
directory-derived placeholder `<dirname>-fromdir` with `directory_name`
still set otherwise; in both cases the name is nonempty. -/
theorem C6_course_name (dirname : String) (nfos : List NfoInput) :
    (∀ s, courseNameOf nfos = some s →
      (resolveCourse dirname nfos).name = s ∧
      (resolveCourse dirname nfos).source.nfo = true ∧
      (resolveCourse dirname nfos).source.directory_name = false) ∧
    (courseNameOf nfos = none →
      (resolveCourse dirname nfos).name = dirname ++ "-fromdir" ∧
      (resolveCourse dirname nfos).source.directory_name = true ∧
      (resolveCourse dirname nfos).source.nfo = false) ∧
    (resolveCourse dirname nfos).name ≠ "" := by
  rw [resolveCourse_eq]
  refine ⟨?_, ?_, ?_⟩
  · intro s h
    simp [h]
  · intro h
    simp [h]
  · rcases h : courseNameOf nfos with _ | s
    · simp only [h, Option.getD_none]
      intro heq
      have := congrArg String.length heq
      simp [String.length_append] at this
      have h8 : ("-fromdir" : String).length = 8 := by decide
      omega
    · simp only [h, Option.getD_some]
      intro heq
      have hcl := courseNameOf_clean nfos s h
      rw [heq] at hcl
      exact absurd hcl (by decide)

/-- C6 witness: a sidecar naming `Algebra I` wins over the placeholder,
sets `nfo` and clears `directory_name`. -/
theorem C6_course_name_witness :
    (resolveCourse "algebra" [courseDocAlgebra]).name = "Algebra I" ∧
    (resolveCourse "algebra" [courseDocAlgebra]).source.nfo = true ∧
    (resolveCourse "algebra" [courseDocAlgebra]).source.directory_name
      = false :=
  (C6_course_name "algebra" [courseDocAlgebra]).1 "Algebra I" (by decide)

/-- C7: course-level sidecar discovery uses exactly the first glob match
and nothing else: `find_nfo_file` returns the head of the glob list, the
whole course resolution is unchanged when the other candidates are
dropped, and an empty glob list yields no document. -/
theorem C7_first_nfo_only (dirname : String) (f : NfoInput)
    (rest : List NfoInput) :
    find_nfo_file (f :: rest) = some f ∧
    resolveCourse dirname (f :: rest) = resolveCourse dirname [f] ∧
    find_nfo_file ([] : List NfoInput) = none :=
  ⟨rfl, rfl, rfl⟩

/-- C8: a library child directory with zero files matching the video
allow-list yields no course at all — `scanOne` rejects it, a library
whose directories all lack videos scans to the empty list — and every
emitted course has at least one lesson. -/
theorem C8_no_videos_no_course (cap : Bool) (probeOf : String → Probe) :
    (∀ e : DirEntry, (∀ f ∈ e.files, is_video_file f = false) →
      scanOne cap probeOf e = none) ∧
    (∀ (entries : List DirEntry) (c : CourseOut),
      c ∈ scan_directory cap probeOf entries → c.lessons ≠ []) ∧
    (∀ entries : List DirEntry,
      (∀ e ∈ entries, ∀ f ∈ e.files, is_video_file f = false) →
      scan_directory cap probeOf entries = []) := by
  have hone : ∀ e : DirEntry, (∀ f ∈ e.files, is_video_file f = false) →
      scanOne cap probeOf e = none := by
    intro e h
    unfold scanOne
    have hfil : e.files.filter is_video_file = [] := by
      rw [List.filter_eq_nil_iff]
      intro a ha
      simp [h a ha]
    by_cases hd : e.isDir
    · simp [hd, hfil]
    · simp [hd]
  refine ⟨hone, ?_, ?_⟩
  · intro entries c hc
    unfold scan_directory at hc
    rw [List.mem_filterMap] at hc
    obtain ⟨e, he, hsome⟩ := hc
    unfold scanOne at hsome
    by_cases hd : e.isDir
    · by_cases hv : (e.files.filter is_video_file).isEmpty
      · simp [hd, hv] at hsome
      · simp only [hd, Bool.not_true, Bool.false_eq_true, if_false, hv,
          if_neg, Option.some.injEq] at hsome
        subst hsome
        simp only [ne_eq, List.map_eq_nil_iff]
        intro hnil
        have hlen := sortLe_length (fun a b => a ≤ b)
          (e.files.filter is_video_file)
        rw [hnil] at hlen
        simp only [List.length_nil] at hlen
        rw [List.isEmpty_iff] at hv
        exact hv (List.eq_nil_of_length_eq_zero hlen.symm)
    · simp [hd] at hsome
  · intro entries h
    unfold scan_directory
    rw [List.filterMap_eq_nil_iff]
    intro e he
    exact hone e (h e ((mem_sortLe _ e entries).1 he))

/-- C8 witness: a directory holding only `notes.txt` and `readme.md`
produces no course, and a library of such directories scans empty. -/
theorem C8_no_videos_no_course_witness :
    scanOne false (fun _ => Probe.fail) dirNoVideo = none ∧
    scan_directory false (fun _ => Probe.fail) [dirNoVideo] = [] := by
  refine ⟨(C8_no_videos_no_course false (fun _ => Probe.fail)).1 dirNoVideo
    ?_, (C8_no_videos_no_course false (fun _ => Probe.fail)).2.2
    [dirNoVideo] ?_⟩
  · decide
  · decide

/-- C9: the metadata readers never raise — a malformed sidecar parses to
absent, a missing capability or a failed probe yields absent, and in each
case resolution proceeds with the remaining sources (a malformed lesson
sidecar behaves exactly like no sidecar, and the filename source still
resolves the title). -/
theorem C9_readers_never_raise :
    parse_tvshow_nfo .malformed = none ∧
    parse_episode_nfo .malformed = none ∧
    (∀ p : Probe, extract_media_metadata false p = none) ∧
    extract_media_metadata true .fail = none ∧
    (∀ (cap : Bool) (fname : String) (p : Probe),
      resolveLesson cap ⟨fname, [.malformed], p⟩
        = resolveLesson cap ⟨fname, [], p⟩) ∧
    (∀ fname : String,
      (resolveLesson true ⟨fname, [.malformed], .fail⟩).title
        = filenameTitleOf fname) ∧
    (∀ dirname : String,
      resolveCourse dirname [.malformed] = resolveCourse dirname []) := by
  refine ⟨rfl, rfl, fun p => rfl, rfl, fun cap fname p => rfl, ?_,
    fun dirname => rfl⟩
  intro fname
  rw [resolveLesson_eq]
  simp [sidecarTitleOf, parse_episode_nfo, containerTitleOf,
    extract_media_metadata, optOr]

/-- C10 counterexample: the claim says every scanner-produced duration is
absent or strictly positive, but a sidecar runtime of `-5` minutes is
truthy and is stored as `-300` seconds: the scan of `dirNegRuntime`
produces a lesson with duration `-300`, which is not positive. -/
theorem C10_counterexample :
    ¬ (∀ c ∈ scan_directory false (fun _ => Probe.fail) [dirNegRuntime],
        ∀ l ∈ c.lessons, ∀ v : Int, l.duration = some v → 0 < v) := by
  intro h
  have hsc : scan_directory false (fun _ => Probe.fail) [dirNegRuntime]
      = [courseNegOut] := by decide
  have hmem : courseNegOut
      ∈ scan_directory false (fun _ => Probe.fail) [dirNegRuntime] := by
    rw [hsc]
    exact List.mem_singleton.mpr rfl
  have hl : lessonNegOut ∈ courseNegOut.lessons :=
    List.mem_singleton.mpr rfl
  have := h courseNegOut hmem lessonNegOut hl (-300) (by decide)
  omega

/-- C10 amended: every scanner-produced lesson duration is either absent
or a nonzero integer — a zero duration from any source is falsy and never
stored; strict positivity does not hold because negative sidecar runtimes
are stored as negative durations. -/
theorem C10_duration_nonzero (cap : Bool) (probeOf : String → Probe)
    (entries : List DirEntry) :
    ∀ c ∈ scan_directory cap probeOf entries, ∀ l ∈ c.lessons,
      l.duration ≠ some 0 := by
  intro c hc l hl
  unfold scan_directory at hc
  rw [List.mem_filterMap] at hc
  obtain ⟨e, he, hsome⟩ := hc
  unfold scanOne at hsome
  by_cases hd : e.isDir
  · by_cases hv : (e.files.filter is_video_file).isEmpty
    · simp [hd, hv] at hsome
    · simp only [hd, Bool.not_true, Bool.false_eq_true, if_false, hv,
        if_neg, Option.some.injEq] at hsome
      subst hsome
      simp only [List.mem_map] at hl
      obtain ⟨v, hv2, hlv⟩ := hl
      subst hlv
      simpa [lessonOf] using resolveLesson_duration_ne_zero cap
        ⟨pathName v, e.lessonNfo v, probeOf v⟩
  · simp [hd] at hsome

/-- C10 amended witness: the scanner-produced lesson of `dirNegRuntime`
(duration `-300`) indeed does not carry a zero duration. -/
theorem C10_duration_nonzero_witness :
    lessonNegOut.duration ≠ some 0 :=
  C10_duration_nonzero false (fun _ => Probe.fail) [dirNegRuntime]
    courseNegOut (by decide) lessonNegOut (by decide)

end EduScanner
